import Mathlib

/-!
Verification of the link-resolution, metadata, quality-gating, size-cache and
progress-stripping core of the yt2mp3mp4 GUI (the `GUI` class of the v2.1.0
iteration).  Pure helpers (`_strip_ansi`, `_is_youtube_url`, the gating
arithmetic of `_refresh_quality_menu`) are translated directly; the stateful
methods (`wait_link`, `update_filesize_display`, `_estimate_and_update_size`,
`update_quality_options`, `reset_video_info_panel`) become functions on an
explicit record of the Tk-level state they read and write, and the
thread/event behaviour (one thread per keystroke, one per size estimation,
publication via `window.after`) becomes a step function over an event trace.
External collaborators (`validators.url`, `urlparse`, `yt_dlp.extract_info`)
are oracle parameters.
-/

namespace Yt2mp3

/-! ### `GUI._strip_ansi`

The Python code substitutes every match of the CSI regex (ESC, an opening
square bracket, then any parameter bytes 0x30 to 0x3F, then any intermediate
bytes 0x20 to 0x2F, then one final byte 0x40 to 0x7E) with the empty string.
The three byte classes are pairwise disjoint, so the regex engine's greedy
matching is equivalent to the deterministic scan below: at an ESC-bracket
pair, drop the maximal run of parameter bytes, then the maximal run of
intermediate bytes, then require one final byte; on failure the scan
restarts one character later, exactly as `re.sub` restarts its search at
the next position.  The scanner carries an explicit fuel argument (the
length of the remaining input always bounds the fuel needed) so that it is
structurally recursive and evaluates by `rfl`. -/

def escChar : Char := '\x1b'

def isParamB (c : Char) : Bool := decide (48 ≤ c.toNat ∧ c.toNat ≤ 63)

def isInterB (c : Char) : Bool := decide (32 ≤ c.toNat ∧ c.toNat ≤ 47)

def isFinalB (c : Char) : Bool := decide (64 ≤ c.toNat ∧ c.toNat ≤ 126)

/-- Consume the body of a CSI sequence (everything after the ESC-bracket
pair): parameter bytes, then intermediate bytes, then one final byte.
Returns the remaining input on a match, `none` when the regex cannot match
at this position. -/
def csiTail (l : List Char) : Option (List Char) :=
  match (l.dropWhile isParamB).dropWhile isInterB with
  | c :: r => if isFinalB c then some r else none
  | [] => none

/-- Fueled scanner implementing the substitution of every CSI match by the
empty string. -/
def stripGo : Nat → List Char → List Char
  | 0, l => l
  | _ + 1, [] => []
  | fuel + 1, c :: rest =>
    if c = escChar then
      match rest with
      | b :: rest2 =>
        if b = '[' then
          match csiTail rest2 with
          | some rest3 => stripGo fuel rest3
          | none => c :: stripGo fuel rest
        else c :: stripGo fuel rest
      | [] => [c]
    else c :: stripGo fuel rest

def stripAnsiL (l : List Char) : List Char := stripGo l.length l

/-- `GUI._strip_ansi`: removes ANSI CSI escape sequences from a string. -/
def strip_ansi (s : String) : String := ⟨stripAnsiL s.data⟩

theorem length_dropWhile_le (q : Char → Bool) (l : List Char) :
    (l.dropWhile q).length ≤ l.length := by
  induction l with
  | nil => simp
  | cons a t ih =>
    rw [List.dropWhile_cons]
    by_cases h : q a = true
    · simp only [h, if_pos]
      exact Nat.le_trans ih (Nat.le_succ _)
    · simp [h]

theorem csiTail_length {l r : List Char} (h : csiTail l = some r) :
    r.length < l.length := by
  cases hml : (l.dropWhile isParamB).dropWhile isInterB with
  | nil => simp [csiTail, hml] at h
  | cons c t =>
    simp only [csiTail, hml] at h
    by_cases hf : isFinalB c = true
    · simp only [if_pos hf, Option.some.injEq] at h
      subst h
      have h2 := length_dropWhile_le isInterB (l.dropWhile isParamB)
      have h1 := length_dropWhile_le isParamB l
      rw [hml] at h2
      simp only [List.length_cons] at h2
      omega
    · simp [hf] at h

theorem stripGo_congr : ∀ (f1 : Nat), ∀ (l : List Char), ∀ (f2 : Nat),
    l.length ≤ f1 → l.length ≤ f2 → stripGo f1 l = stripGo f2 l := by
  intro f1
  induction f1 with
  | zero =>
    intro l f2 h1 _
    have : l = [] := List.eq_nil_of_length_eq_zero (Nat.le_zero.mp h1)
    subst this
    cases f2 <;> rfl
  | succ f ih =>
    intro l f2 h1 h2
    match l with
    | [] => cases f2 <;> rfl
    | c :: rest =>
      match f2 with
      | 0 => simp at h2
      | f2 + 1 =>
        simp only [List.length_cons, Nat.add_le_add_iff_right] at h1 h2
        by_cases hc : c = escChar
        · subst hc
          match rest with
          | [] => simp [stripGo]
          | b :: rest2 =>
            by_cases hb : b = '['
            · subst hb
              match hcs : csiTail rest2 with
              | some rest3 =>
                have hlt : rest3.length < rest2.length := csiTail_length hcs
                simp only [stripGo, if_pos rfl, hcs]
                simp only [List.length_cons] at h1 h2
                exact ih rest3 f2 (by omega) (by omega)
              | none =>
                simp only [stripGo, if_pos rfl, hcs]
                exact congrArg (escChar :: ·) (ih ('[' :: rest2) f2 h1 h2)
            · simp only [stripGo, if_pos rfl, if_neg hb]
              exact congrArg (escChar :: ·) (ih (b :: rest2) f2 h1 h2)
        · simp only [stripGo, if_neg hc]
          exact congrArg (c :: ·) (ih rest f2 h1 h2)

theorem stripAnsiL_nil : stripAnsiL [] = [] := rfl

theorem stripAnsiL_cons_ne (c : Char) (l : List Char) (h : c ≠ escChar) :
    stripAnsiL (c :: l) = c :: stripAnsiL l := by
  show stripGo (l.length + 1) (c :: l) = c :: stripGo l.length l
  simp only [stripGo, if_neg h]

theorem inter_not_param {c : Char} (h : isInterB c = true) : isParamB c = false := by
  simp only [isInterB, decide_eq_true_eq] at h
  simp only [isParamB, decide_eq_false_iff_not]
  omega

theorem final_not_param {c : Char} (h : isFinalB c = true) : isParamB c = false := by
  simp only [isFinalB, decide_eq_true_eq] at h
  simp only [isParamB, decide_eq_false_iff_not]
  omega

theorem final_not_inter {c : Char} (h : isFinalB c = true) : isInterB c = false := by
  simp only [isFinalB, decide_eq_true_eq] at h
  simp only [isInterB, decide_eq_false_iff_not]
  omega

theorem dropWhile_all_append (q : Char → Bool) :
    ∀ (p l : List Char), (∀ c ∈ p, q c = true) →
      List.dropWhile q (p ++ l) = List.dropWhile q l := by
  intro p
  induction p with
  | nil => intro l _; rfl
  | cons a t ih =>
    intro l hall
    have ha : q a = true := hall a (by simp)
    simp only [List.cons_append, List.dropWhile_cons, ha, if_pos]
    exact ih l (fun c hc => hall c (by simp [hc]))

theorem dropWhile_head_false (q : Char → Bool) (c : Char) (l : List Char)
    (h : q c = false) : List.dropWhile q (c :: l) = c :: l := by
  simp [List.dropWhile_cons, h]

theorem csiTail_eval (p i : List Char) (f : Char) (rest : List Char)
    (hp : ∀ c ∈ p, isParamB c = true) (hi : ∀ c ∈ i, isInterB c = true)
    (hf : isFinalB f = true) :
    csiTail (p ++ i ++ f :: rest) = some rest := by
  have h1 : List.dropWhile isParamB (p ++ i ++ f :: rest)
      = List.dropWhile isParamB (i ++ f :: rest) := by
    rw [List.append_assoc]; exact dropWhile_all_append _ p _ hp
  have h2 : List.dropWhile isParamB (i ++ f :: rest) = i ++ f :: rest := by
    match i with
    | [] => exact dropWhile_head_false _ _ _ (final_not_param hf)
    | a :: t =>
      exact dropWhile_head_false _ _ _ (inter_not_param (hi a (by simp)))
  have h3 : List.dropWhile isInterB (i ++ f :: rest) = f :: rest := by
    rw [dropWhile_all_append _ i _ hi]
    exact dropWhile_head_false _ _ _ (final_not_inter hf)
  simp only [csiTail, h1, h2, h3, if_pos hf]

theorem stripAnsiL_csi (p i : List Char) (f : Char) (rest : List Char)
    (hp : ∀ c ∈ p, isParamB c = true) (hi : ∀ c ∈ i, isInterB c = true)
    (hf : isFinalB f = true) :
    stripAnsiL (escChar :: '[' :: (p ++ i ++ f :: rest)) = stripAnsiL rest := by
  have hcs : csiTail (p ++ i ++ f :: rest) = some rest :=
    csiTail_eval p i f rest hp hi hf
  show stripGo ((p ++ i ++ f :: rest).length + 1 + 1)
      (escChar :: '[' :: (p ++ i ++ f :: rest)) = stripAnsiL rest
  simp only [stripGo, if_pos rfl, hcs]
  exact stripGo_congr _ rest _ (by simp; omega) (le_refl _)

/-! ### Data model

`Format` is one entry of `info['formats']` as read by `_refresh_quality_menu`
(`vcodec`, `abr`, `height`; every field may be missing).  `Info` is the
result of `yt_dlp.extract_info` as read by `wait_link` (`title`,
`thumbnail`, `formats`).  `SizeDisp` abstracts the text of
`filesize_label`: the empty text, the "Estimating size…" placeholder, the
"Size unknown" failure text, or the "Estimated size: … MB" text, which is a
pure rendering of a byte count. -/

structure Format where
  vcodec : Option String
  abr : Option Nat
  height : Option Nat
  deriving DecidableEq

structure Info where
  title : Option String
  thumbnail : Option String
  formats : List Format
  deriving DecidableEq

inductive SizeDisp where
  | blank
  | estimating
  | unknown
  | bytes (n : Nat)
  deriving DecidableEq

/-- Cache key of `self.size_cache`: `(url, to_mp3, quality)`. -/
abbrev CKey := String × Bool × String

/-- Python truthiness of an `x or d` chain over an optional number:
`None` and `0` both fall through to the default. -/
def pyOr (a : Option Nat) (d : Nat) : Nat :=
  match a with
  | some n => if n = 0 then d else n
  | none => d

/-- Python truthiness of an optional string (`if thumb:`): `None` and the
empty string are falsy. -/
def pyTruthyStr (a : Option String) : Bool :=
  match a with
  | some s => decide (s ≠ "")
  | none => false

/-- `self.size_cache[key]` lookup (`key in self.size_cache`). -/
def cacheLookup (c : List (CKey × Nat)) (k : CKey) : Option Nat :=
  (c.find? fun p => p.1 == k).map (fun p => p.2)

/-- `self.size_cache[key] = total`: dict assignment overwrites an existing
key and otherwise appends. -/
def cacheInsert (k : CKey) (v : Nat) (c : List (CKey × Nat)) : List (CKey × Nat) :=
  if (c.find? fun p => p.1 == k).isSome then
    c.map (fun p => if p.1 == k then (k, v) else p)
  else c ++ [(k, v)]

/-! ### The GUI state

Only the attributes the core methods read or write are modelled.  The two
thread lists record the arguments captured by every `Thread(...).start()`
call, in spawn order (`fetchThreads` for `wait_link` workers, `estThreads`
for `_estimate_and_update_size` workers); an event trace (below) decides
when each worker's effects land. -/

structure GuiSt where
  in_link_entry : String
  current_info : Option Info
  video_title : String
  photo : Bool
  link_status : String
  is_mp3 : Bool
  quality_var : String
  menu : List (String × Bool)
  filesize_label : SizeDisp
  size_cache : List (CKey × Nat)
  fetchThreads : List String
  estThreads : List CKey
  deriving DecidableEq

/-! ### `GUI._is_youtube_url`

`urlparse` is an external collaborator; the oracle delivers `netloc` (or
`none` when parsing raises).  The Python `in` substring test is embedded as
`containsSub`. -/

def startsWithL : List Char → List Char → Bool
  | [], _ => true
  | _ :: _, [] => false
  | a :: as, b :: bs => a == b && startsWithL as bs

def containsSub (needle : List Char) : List Char → Bool
  | [] => startsWithL needle []
  | c :: t => startsWithL needle (c :: t) || containsSub needle t

def lowerStr (s : String) : String := ⟨s.data.map Char.toLower⟩

/-- `GUI._is_youtube_url` applied to the parse result: lowercase the netloc
and test the two substrings; a parse failure returns `False`. -/
def is_youtube_of (netlocResult : Option String) : Bool :=
  match netlocResult with
  | some net =>
    containsSub "youtube.com".data (lowerStr net).data
      || containsSub "youtu.be".data (lowerStr net).data
  | none => false

/-! ### Quality gating (`GUI._refresh_quality_menu`, computation part) -/

def audioOpts : List (String × Nat) := [("Low", 96), ("Medium", 192), ("High", 320)]

def videoOpts : List (String × Nat) :=
  [("480p", 480), ("720p", 720), ("1080p", 1080), ("4K", 2160)]

/-- `max_abr`: maximum of `f.get('abr') or 0` over formats with
`vcodec == 'none'`, or `0` when that list is empty. -/
def max_abr (formats : List Format) : Nat :=
  let abr_list := (formats.filter fun f => f.vcodec == some "none").map
    (fun f => pyOr f.abr 0)
  if abr_list.isEmpty then 0 else abr_list.foldl Nat.max 0

/-- `max_h`: maximum of `f.get('height') or 0` over formats with
`vcodec != 'none'`, or `0` when that list is empty. -/
def max_h (formats : List Format) : Nat :=
  let heights := (formats.filter fun f => f.vcodec != some "none").map
    (fun f => pyOr f.height 0)
  if heights.isEmpty then 0 else heights.foldl Nat.max 0

/-- The rebuilt audio menu: each option label paired with its enabled state
(`'normal' if kbps <= max_abr else 'disabled'`). -/
def audioMenu (formats : List Format) : List (String × Bool) :=
  audioOpts.map (fun e => (e.1, decide (e.2 ≤ max_abr formats)))

/-- The rebuilt video menu: each option label paired with its enabled state
(`'normal' if h <= max_h else 'disabled'`). -/
def videoMenu (formats : List Format) : List (String × Bool) :=
  videoOpts.map (fun e => (e.1, decide (e.2 ≤ max_h formats)))

/-- The menu state recorded for a label: `none` when `cur not in entries`,
otherwise the enabled flag at the label's first occurrence. -/
def entryLookup (menu : List (String × Bool)) (cur : String) : Option Bool :=
  (menu.find? fun e => e.1 == cur).map (fun e => e.2)

/-- The selection fix-up at the end of `_refresh_quality_menu`: when the
current label is absent or disabled, scan the entries in menu order and
select the first one whose state is `'normal'`; when none is, the variable
is left as it was. -/
def fallbackSelect (menu : List (String × Bool)) (cur : String) : String :=
  match entryLookup menu cur with
  | some true => cur
  | _ =>
    match menu.find? (fun e => e.2) with
    | some e => e.1
    | none => cur

/-! ### External collaborators

`validatorsUrl` is `validators.url` (truthy or falsy); `netloc` is
`urlparse(url).netloc` (`none` when it raises); `extract` is
`yt_dlp.extract_info` for the metadata-only query of `wait_link` (`none`
when it raises); `extractFmt url fmt` is `yt_dlp.extract_info` under a
format specifier, as issued by `_estimate_and_update_size` (`none` when it
raises).  Each oracle is a function, so a repeated query for the same
arguments returns the same answer. -/

/-- The size-relevant part of an `extract_info` result under a format
specifier: either `requested_formats` (one `(filesize, filesize_approx)`
pair per part) or the top-level `(filesize, filesize_approx)` pair. -/
inductive EstInfo where
  | parts (ps : List (Option Nat × Option Nat))
  | single (fs fa : Option Nat)
  deriving DecidableEq

structure Oracles where
  validatorsUrl : String → Bool
  netloc : String → Option String
  extract : String → Option Info
  extractFmt : String → String → Option EstInfo

/-- `GUI._is_youtube_url` on a raw URL, through the `urlparse` oracle. -/
def is_youtube_url (O : Oracles) (url : String) : Bool :=
  is_youtube_of (O.netloc url)

/-- The `height_map.get(quality, 720)` lookup of `_estimate_and_update_size`. -/
def heightMapGet (q : String) : Nat :=
  if q = "480p" then 480
  else if q = "720p" then 720
  else if q = "1080p" then 1080
  else if q = "4K" then 2160
  else 720

/-- The format specifier `_estimate_and_update_size` builds: audio requests
`bestaudio/best`; video requests best video at or below the target height
plus best audio. -/
def fmtSpec (is_mp3 : Bool) (quality : String) : String :=
  if is_mp3 then "bestaudio/best"
  else "bestvideo[height<=" ++ toString (heightMapGet quality) ++ "]+bestaudio/best"

/-- One part's byte contribution:
`f.get('filesize') or f.get('filesize_approx') or 0`. -/
def partBytes (p : Option Nat × Option Nat) : Nat := pyOr p.1 (pyOr p.2 0)

/-- The `total` summation of `_estimate_and_update_size`. -/
def totalSize : EstInfo → Nat
  | .parts ps => ps.foldl (fun a p => a + partBytes p) 0
  | .single fs fa => pyOr fs (pyOr fa 0)

/-! ### The stateful methods -/

/-- Python's `str.strip()`: drop leading and trailing whitespace. -/
def pyStrip (s : String) : String :=
  ⟨((s.data.dropWhile Char.isWhitespace).reverse.dropWhile Char.isWhitespace).reverse⟩

/-- `GUI.reset_video_info_panel`. -/
def reset_video_info_panel (s : GuiSt) : GuiSt :=
  { s with video_title := "", photo := false, current_info := none,
           filesize_label := .blank }

/-- `GUI.update_filesize_display`: read the current entry text, output kind
and quality; blank the label when there is no URL; on a cache hit show the
cached size at once; on a miss show the placeholder and start an
`_estimate_and_update_size` worker with the key's components. -/
def update_filesize_display (s : GuiSt) : GuiSt :=
  let url := pyStrip s.in_link_entry
  let key : CKey := (url, s.is_mp3, s.quality_var)
  if url = "" then { s with filesize_label := .blank }
  else
    match cacheLookup s.size_cache key with
    | some v => { s with filesize_label := .bytes v }
    | none =>
      { s with filesize_label := .estimating,
               estThreads := s.estThreads ++ [key] }

/-- `GUI._refresh_quality_menu`: return unchanged when no metadata is
present; otherwise rebuild the menu with per-entry enabled states from the
current formats, fix up the selected value, and re-estimate the size for
the resulting selection.  (In the source the selection fix-up runs through
`quality_var.set`, whose write trace re-enters `_refresh_quality_menu`; that
re-entry recomputes the same menu, finds the new selection enabled, changes
nothing further, and is therefore dropped here.) -/
def refresh_quality_menu (s : GuiSt) : GuiSt :=
  match s.current_info with
  | none => s
  | some info =>
    let menu := if s.is_mp3 then audioMenu info.formats else videoMenu info.formats
    let cur := fallbackSelect menu s.quality_var
    update_filesize_display { s with menu := menu, quality_var := cur }

/-- `GUI.update_quality_options`: rebuild the menu for the current output
kind with every entry enabled, select the middle option
(`opts[len(opts)//2]`), then run `_refresh_quality_menu`. -/
def update_quality_options (s : GuiSt) : GuiSt :=
  let opts := if s.is_mp3 then audioOpts else videoOpts
  let menu := opts.map (fun e => (e.1, true))
  let dflt := match opts.get? (opts.length / 2) with
    | some e => e.1
    | none => s.quality_var
  refresh_quality_menu { s with menu := menu, quality_var := dflt }

/-- `GUI.wait_link`, the whole worker body for one captured entry text: the
empty, syntactically-invalid and non-YouTube branches set a status and
reset the panel; a failing metadata query sets the error status and returns;
success stores `info`, shows title and thumbnail, flushes the size cache,
refreshes the quality menu, re-estimates the size and sets the fetched
status.  The intermediate statuses (`Verifying link...`, `Fetching link...`)
and the 3-second status reverts are timer-driven display transients and are
not part of the final state modelled here. -/
def wait_link (O : Oracles) (url : String) (s : GuiSt) : GuiSt :=
  if url = "" then
    reset_video_info_panel { s with link_status := "Waiting for link..." }
  else if ¬ O.validatorsUrl url then
    reset_video_info_panel { s with link_status := "Please enter a valid link." }
  else if ¬ is_youtube_url O url then
    reset_video_info_panel { s with link_status := "Please enter a valid YouTube link." }
  else
    match O.extract url with
    | none => { s with link_status := "Error fetching link." }
    | some info =>
      let s1 := { s with current_info := some info,
                         video_title := info.title.getD "",
                         photo := pyTruthyStr info.thumbnail,
                         size_cache := [] }
      let s2 := update_filesize_display (refresh_quality_menu s1)
      { s2 with link_status := "Link fetched!" }

/-- `GUI._estimate_and_update_size`, the worker body for one captured
`(url, is_mp3, quality)` triple: query the collaborator under the format
specifier; on failure show `Size unknown`; on success sum the part sizes,
write the key into the cache and show the total. -/
def estimate_and_update_size (O : Oracles) (url : String) (is_mp3 : Bool)
    (quality : String) (s : GuiSt) : GuiSt :=
  match O.extractFmt url (fmtSpec is_mp3 quality) with
  | none => { s with filesize_label := .unknown }
  | some ei =>
    let total := totalSize ei
    { s with size_cache := cacheInsert (url, is_mp3, quality) total s.size_cache,
             filesize_label := .bytes total }

/-! ### Event-trace semantics

`editLink t` is one change of the link entry: the write trace fires
`start_wait_link_thread`, which captures the current text and spawns a
`wait_link` worker.  `completeFetch i` (resp. `completeEst i`) is the
completion of the i-th spawned `wait_link` (resp. estimation) worker: all
its published effects land then.  `selectQuality q` is a write to the
quality variable (its trace runs `_refresh_quality_menu`); `toggleKind m`
is a toggle of the MP3/MP4 radio buttons (its trace runs
`update_quality_options`).  Workers never force an ordering among
themselves: any interleaving of completions is a trace. -/

inductive Ev where
  | editLink (text : String)
  | completeFetch (i : Nat)
  | completeEst (i : Nat)
  | selectQuality (q : String)
  | toggleKind (m : Bool)

def stepEv (O : Oracles) (s : GuiSt) (e : Ev) : GuiSt :=
  match e with
  | .editLink t => { s with in_link_entry := t, fetchThreads := s.fetchThreads ++ [t] }
  | .completeFetch i =>
    match s.fetchThreads.get? i with
    | some u => wait_link O u s
    | none => s
  | .completeEst i =>
    match s.estThreads.get? i with
    | some k => estimate_and_update_size O k.1 k.2.1 k.2.2 s
    | none => s
  | .selectQuality q => refresh_quality_menu { s with quality_var := q }
  | .toggleKind m => update_quality_options { s with is_mp3 := m }

/-- The state `GUI.__init__` builds (it ends with a call to
`update_quality_options`). -/
def init0 : GuiSt :=
  { in_link_entry := "", current_info := none, video_title := "",
    photo := false, link_status := "Waiting for link...", is_mp3 := true,
    quality_var := "Medium", menu := [], filesize_label := .blank,
    size_cache := [], fetchThreads := [], estThreads := [] }

def initSt : GuiSt := update_quality_options init0

def runEvents (O : Oracles) (es : List Ev) : GuiSt := es.foldl (stepEv O) initSt

/-! ### Helper lemmas -/

@[simp] theorem ufd_video_title (s : GuiSt) :
    (update_filesize_display s).video_title = s.video_title := by
  simp only [update_filesize_display]
  split
  · rfl
  · split <;> rfl

@[simp] theorem ufd_current_info (s : GuiSt) :
    (update_filesize_display s).current_info = s.current_info := by
  simp only [update_filesize_display]
  split
  · rfl
  · split <;> rfl

@[simp] theorem ufd_size_cache (s : GuiSt) :
    (update_filesize_display s).size_cache = s.size_cache := by
  simp only [update_filesize_display]
  split
  · rfl
  · split <;> rfl

@[simp] theorem ufd_photo (s : GuiSt) :
    (update_filesize_display s).photo = s.photo := by
  simp only [update_filesize_display]
  split
  · rfl
  · split <;> rfl

@[simp] theorem rqm_video_title (s : GuiSt) :
    (refresh_quality_menu s).video_title = s.video_title := by
  unfold refresh_quality_menu
  split
  · rfl
  · simp

@[simp] theorem rqm_current_info (s : GuiSt) :
    (refresh_quality_menu s).current_info = s.current_info := by
  unfold refresh_quality_menu
  split
  · rfl
  · simp

@[simp] theorem rqm_size_cache (s : GuiSt) :
    (refresh_quality_menu s).size_cache = s.size_cache := by
  unfold refresh_quality_menu
  split
  · rfl
  · simp

@[simp] theorem rqm_photo (s : GuiSt) :
    (refresh_quality_menu s).photo = s.photo := by
  unfold refresh_quality_menu
  split
  · rfl
  · simp

theorem find?_append_none {α} (p : α → Bool) (l1 l2 : List α)
    (h : l1.find? p = none) : (l1 ++ l2).find? p = l2.find? p := by
  induction l1 with
  | nil => rfl
  | cons a t ih =>
    cases hp : p a with
    | true => rw [List.find?_cons_of_pos t hp] at h; cases h
    | false =>
      rw [List.find?_cons_of_neg t (by simp [hp])] at h
      rw [List.cons_append, List.find?_cons_of_neg _ (by simp [hp])]
      exact ih h

theorem cacheLookup_map_overwrite (k : CKey) (v : Nat) :
    ∀ (c : List (CKey × Nat)), (c.find? fun p => p.1 == k).isSome = true →
    cacheLookup (c.map fun p => if p.1 == k then (k, v) else p) k = some v := by
  intro c
  induction c with
  | nil => intro h; simp [List.find?] at h
  | cons p t ih =>
    intro h
    cases hp : (p.1 == k) with
    | true =>
      simp only [List.map_cons, hp, if_pos]
      unfold cacheLookup
      rw [List.find?_cons_of_pos _ (by simp)]
      rfl
    | false =>
      rw [List.find?_cons_of_neg t (by simp [hp])] at h
      simp only [List.map_cons, hp, Bool.false_eq_true, if_neg,
        not_false_eq_true]
      unfold cacheLookup
      rw [List.find?_cons_of_neg _ (by simp [hp])]
      exact ih h

theorem cacheLookup_insert (k : CKey) (v : Nat) (c : List (CKey × Nat)) :
    cacheLookup (cacheInsert k v c) k = some v := by
  unfold cacheInsert
  split
  · rename_i h
    exact cacheLookup_map_overwrite k v c h
  · rename_i h
    unfold cacheLookup
    rw [find?_append_none _ c _ (by
      cases hf : c.find? (fun p => p.1 == k) with
      | none => rfl
      | some p => rw [hf] at h; simp at h)]
    rw [List.find?_cons_of_pos _ (by simp)]
    rfl

theorem startsWithL_iff : ∀ (n h : List Char),
    startsWithL n h = true ↔ ∃ t, h = n ++ t := by
  intro n
  induction n with
  | nil => intro h; simp [startsWithL]
  | cons a as ih =>
    intro h
    match h with
    | [] =>
      simp only [startsWithL, Bool.false_eq_true, false_iff]
      rintro ⟨t, ht⟩
      exact absurd ht (by simp)
    | b :: bs =>
      simp only [startsWithL, Bool.and_eq_true, beq_iff_eq]
      rw [ih bs]
      constructor
      · rintro ⟨rfl, t, rfl⟩
        exact ⟨t, rfl⟩
      · rintro ⟨t, ht⟩
        injection ht with h1 h2
        exact ⟨h1.symm, t, h2⟩

theorem containsSub_iff : ∀ (n h : List Char),
    containsSub n h = true ↔ ∃ a b, h = a ++ n ++ b := by
  intro n h
  induction h with
  | nil =>
    simp only [containsSub]
    rw [startsWithL_iff]
    constructor
    · rintro ⟨t, ht⟩
      exact ⟨[], t, by simp [ht]⟩
    · rintro ⟨a, b, hab⟩
      have hab' : a ++ (n ++ b) = [] := by rw [← List.append_assoc]; exact hab.symm
      rcases List.append_eq_nil.mp hab' with ⟨rfl, h2⟩
      rcases List.append_eq_nil.mp h2 with ⟨rfl, rfl⟩
      exact ⟨[], rfl⟩
  | cons c t ih =>
    simp only [containsSub, Bool.or_eq_true]
    rw [startsWithL_iff, ih]
    constructor
    · rintro (⟨u, hu⟩ | ⟨a, b, hab⟩)
      · exact ⟨[], u, by simp [hu]⟩
      · exact ⟨c :: a, b, by simp [hab]⟩
    · rintro ⟨a, b, hab⟩
      match a with
      | [] =>
        exact Or.inl ⟨b, by simpa using hab⟩
      | d :: a2 =>
        right
        injection hab with h1 h2
        exact ⟨a2, b, h2⟩

theorem stripAnsiL_append_plain : ∀ (pre : List Char),
    (∀ c ∈ pre, c ≠ escChar) →
    ∀ rest, stripAnsiL (pre ++ rest) = pre ++ stripAnsiL rest := by
  intro pre
  induction pre with
  | nil => intro _ rest; rfl
  | cons c t ih =>
    intro h rest
    rw [List.cons_append, stripAnsiL_cons_ne c _ (h c (by simp)),
      ih (fun x hx => h x (by simp [hx])) rest, List.cons_append]

/-! ### Concrete fixtures for counterexamples and witnesses -/

def urlA : String := "https://youtu.be/aaa"

def urlB : String := "https://youtu.be/bbb"

def urlErr : String := "https://youtu.be/err"

def infoA : Info := ⟨some "A", none, [⟨some "none", some 320, none⟩]⟩

def infoB : Info := ⟨some "B", none, [⟨some "none", some 320, none⟩]⟩

/-- A concrete collaborator environment: `urlA`, `urlB` and `urlErr` are
syntactically valid YouTube links; metadata fetches succeed for `urlA` and
`urlB` and raise for `urlErr`; the size dry-run answers only for `urlA`
under the best-audio specifier, reporting one five-megabyte part. -/
def Otest : Oracles :=
  { validatorsUrl := fun u => u == urlA || u == urlB || u == urlErr
    netloc := fun u =>
      if u == urlA || u == urlB || u == urlErr then some "youtu.be" else none
    extract := fun u =>
      if u == urlA then some infoA else if u == urlB then some infoB else none
    extractFmt := fun u f =>
      if u == urlA && f == "bestaudio/best" then
        some (.single (some 5000000) none)
      else none }

/-! ### C1 -/

def trC1 : List Ev := [.editLink urlA, .editLink urlB, .completeFetch 1, .completeFetch 0]

/-- C1 counterexample: edit A, edit B, fetch B completes, then fetch A
completes.  The most recent edit is B (`in_link_entry = urlB`, and B's
fetch succeeded with title "B"), yet the final displayed metadata is A's:
the code has no generation tag and the late completion for the older input
overwrites the newer result. -/
theorem C1_counterexample :
    (runEvents Otest trC1).in_link_entry = urlB
  ∧ Otest.extract urlB = some infoB
  ∧ infoB.title.getD "" = "B"
  ∧ (runEvents Otest trC1).video_title = "A"
  ∧ (runEvents Otest trC1).current_info = some infoA
  ∧ ("A" : String) ≠ "B" :=
  ⟨rfl, rfl, rfl, rfl, rfl, by decide⟩

/-- C1 (amended): `wait_link` performs no generation check, so every
successful fetch completion unconditionally overwrites the displayed
metadata with its own result; the finally displayed metadata is therefore
the one of the fetch that completes last, regardless of which edit spawned
it, not the one of the most recent edit. -/
theorem C1_amended (O : Oracles) (es : List Ev) (i : Nat) (u : String) (info : Info)
    (hth : (runEvents O es).fetchThreads.get? i = some u)
    (h0 : u ≠ "") (hv : O.validatorsUrl u = true)
    (hy : is_youtube_url O u = true)
    (hx : O.extract u = some info) :
    (runEvents O (es ++ [.completeFetch i])).video_title = info.title.getD ""
  ∧ (runEvents O (es ++ [.completeFetch i])).current_info = some info := by
  have hrun : runEvents O (es ++ [.completeFetch i])
      = stepEv O (runEvents O es) (.completeFetch i) := by
    unfold runEvents
    rw [List.foldl_append]
    rfl
  rw [hrun]
  simp only [stepEv, hth]
  unfold wait_link
  rw [if_neg h0, if_neg (not_not_intro hv), if_neg (not_not_intro hy), hx]
  simp

/-- Witness for C1 (amended): one edit of `urlA`, whose fetch then
completes; the display carries A's title. -/
theorem C1_witness :
    (runEvents Otest ([Ev.editLink urlA] ++ [Ev.completeFetch 0])).video_title
        = infoA.title.getD ""
  ∧ (runEvents Otest ([Ev.editLink urlA] ++ [Ev.completeFetch 0])).current_info
        = some infoA :=
  C1_amended Otest [Ev.editLink urlA] 0 urlA infoA rfl (by decide) rfl rfl rfl

/-! ### C2 -/

def trC2 : List Ev :=
  [.editLink urlA, .completeFetch 0, .selectQuality "High", .completeEst 0]

/-- C2 counterexample: the fetch for `urlA` spawns an estimation for the
key `(urlA, audio, Medium)`; the user then selects High (so the current
selection no longer matches that key, and a fresh estimation for High is
pending); when the Medium estimation completes it is nevertheless published
to the size display and written into the cache — the stale estimate is not
discarded. -/
theorem C2_counterexample :
    (runEvents Otest trC2).estThreads.get? 0 = some (urlA, true, "Medium")
  ∧ (runEvents Otest trC2).quality_var = "High"
  ∧ ("Medium" : String) ≠ "High"
  ∧ (runEvents Otest trC2).filesize_label = .bytes 5000000
  ∧ cacheLookup (runEvents Otest trC2).size_cache (urlA, true, "Medium")
      = some 5000000 :=
  ⟨rfl, rfl, by decide, rfl, rfl⟩

/-- C2 (amended): a completed size estimation writes its key into the cache
(one write, after which the key maps to the computed total) and publishes
its value to the size display unconditionally — there is no check that the
key still matches the current link/kind/quality selection, so stale
estimates are displayed rather than discarded. -/
theorem C2_amended (O : Oracles) (s : GuiSt) (url : String) (m : Bool)
    (q : String) (ei : EstInfo)
    (h : O.extractFmt url (fmtSpec m q) = some ei) :
    (estimate_and_update_size O url m q s).size_cache
        = cacheInsert (url, m, q) (totalSize ei) s.size_cache
  ∧ (estimate_and_update_size O url m q s).filesize_label
        = .bytes (totalSize ei)
  ∧ cacheLookup (estimate_and_update_size O url m q s).size_cache (url, m, q)
        = some (totalSize ei) := by
  unfold estimate_and_update_size
  rw [h]
  exact ⟨rfl, rfl, cacheLookup_insert _ _ _⟩

/-- Witness for C2 (amended): the Medium-quality audio estimation for
`urlA` completes on the initial state and lands in cache and display. -/
theorem C2_witness :
    (estimate_and_update_size Otest urlA true "Medium" initSt).size_cache
        = cacheInsert (urlA, true, "Medium")
            (totalSize (.single (some 5000000) none)) initSt.size_cache
  ∧ (estimate_and_update_size Otest urlA true "Medium" initSt).filesize_label
        = .bytes (totalSize (.single (some 5000000) none))
  ∧ cacheLookup (estimate_and_update_size Otest urlA true "Medium" initSt).size_cache
        (urlA, true, "Medium") = some (totalSize (.single (some 5000000) none)) :=
  C2_amended Otest initSt urlA true "Medium" (.single (some 5000000) none) rfl

/-! ### C3 -/

def fmts150 : List Format := [⟨some "none", some 150, none⟩]

def fmts1080 : List Format := [⟨some "avc1", none, some 1080⟩]

/-- C3: gating.  An audio option is enabled in the rebuilt menu iff its
kbps value is at most `max_abr` (the maximum `abr or 0` over audio-only
formats, 0 when there are none); a video option is enabled iff its height
is at most `max_h` (the maximum `height or 0` over the remaining formats,
0 when there are none).  In particular `max_abr = 150` enables exactly Low,
and `max_h = 1080` enables exactly 480p, 720p and 1080p. -/
theorem C3_gating (formats : List Format) :
    (∀ l k, (l, k) ∈ audioOpts →
      (((l, true) : String × Bool) ∈ audioMenu formats ↔ k ≤ max_abr formats))
  ∧ (∀ l hv, (l, hv) ∈ videoOpts →
      (((l, true) : String × Bool) ∈ videoMenu formats ↔ hv ≤ max_h formats))
  ∧ ((formats.filter fun f => f.vcodec == some "none") = [] → max_abr formats = 0)
  ∧ ((formats.filter fun f => f.vcodec != some "none") = [] → max_h formats = 0)
  ∧ (max_abr formats = 150 →
      audioMenu formats = [("Low", true), ("Medium", false), ("High", false)])
  ∧ (max_h formats = 1080 →
      videoMenu formats
        = [("480p", true), ("720p", true), ("1080p", true), ("4K", false)]) := by
  refine ⟨?_, ?_, ?_, ?_, ?_, ?_⟩
  · intro l k hmem
    simp only [audioOpts, List.mem_cons, List.not_mem_nil, or_false,
      Prod.mk.injEq] at hmem
    rcases hmem with ⟨rfl, rfl⟩ | ⟨rfl, rfl⟩ | ⟨rfl, rfl⟩ <;>
      simp [audioMenu, audioOpts, Prod.ext_iff, eq_comm]
  · intro l hv hmem
    simp only [videoOpts, List.mem_cons, List.not_mem_nil, or_false,
      Prod.mk.injEq] at hmem
    rcases hmem with ⟨rfl, rfl⟩ | ⟨rfl, rfl⟩ | ⟨rfl, rfl⟩ | ⟨rfl, rfl⟩ <;>
      simp [videoMenu, videoOpts, Prod.ext_iff, eq_comm]
  · intro h
    simp [max_abr, h]
  · intro h
    simp [max_h, h]
  · intro h
    simp [audioMenu, audioOpts, h]
  · intro h
    simp [videoMenu, videoOpts, h]

/-- Witness for C3: a single 150-kbps audio-only format enables exactly Low;
a single 1080-px video format enables exactly 480p, 720p and 1080p; and the
Low entry is enabled in the 150-kbps menu iff 96 ≤ 150. -/
theorem C3_witness :
    audioMenu fmts150 = [("Low", true), ("Medium", false), ("High", false)]
  ∧ videoMenu fmts1080
      = [("480p", true), ("720p", true), ("1080p", true), ("4K", false)]
  ∧ ((("Low", true) : String × Bool) ∈ audioMenu fmts150 ↔ 96 ≤ max_abr fmts150) :=
  ⟨(C3_gating fmts150).2.2.2.2.1 rfl,
   (C3_gating fmts1080).2.2.2.2.2 rfl,
   (C3_gating fmts150).1 "Low" 96 (by decide)⟩

/-! ### C4 -/

/-- C4: the success path of `wait_link` flushes the whole size cache in the
same publish step that installs the new metadata, so once the new metadata
is in place the cache is empty and no previously cached key (in particular
none cached for the previously fetched link) is reachable. -/
theorem C4_cache_flush (O : Oracles) (u : String) (info : Info) (s : GuiSt)
    (h0 : u ≠ "") (hv : O.validatorsUrl u = true)
    (hy : is_youtube_url O u = true) (hx : O.extract u = some info) :
    (wait_link O u s).size_cache = []
  ∧ (wait_link O u s).current_info = some info
  ∧ ∀ k, cacheLookup (wait_link O u s).size_cache k = none := by
  unfold wait_link
  rw [if_neg h0, if_neg (not_not_intro hv), if_neg (not_not_intro hy), hx]
  refine ⟨by simp, by simp, ?_⟩
  intro k
  have hc : (update_filesize_display (refresh_quality_menu
      { s with current_info := some info, video_title := info.title.getD "",
               photo := pyTruthyStr info.thumbnail,
               size_cache := [] })).size_cache = [] := by simp
  simp only [hc]
  rfl

/-- Witness for C4: after a successful fetch of `urlA` on a state holding a
cached entry for `urlB`, the cache is empty and the old key unreachable. -/
theorem C4_witness :
    (wait_link Otest urlA
        { initSt with size_cache := [((urlB, true, "Medium"), 777)] }).size_cache = []
  ∧ (wait_link Otest urlA
        { initSt with size_cache := [((urlB, true, "Medium"), 777)] }).current_info
      = some infoA
  ∧ ∀ k, cacheLookup (wait_link Otest urlA
        { initSt with size_cache := [((urlB, true, "Medium"), 777)] }).size_cache k
      = none :=
  C4_cache_flush Otest urlA infoA
    { initSt with size_cache := [((urlB, true, "Medium"), 777)] }
    (by decide) rfl rfl rfl

/-! ### C5 -/

def trC5a : List Ev := [.editLink urlA, .completeFetch 0, .selectQuality "High"]

def trC5 : List Ev :=
  [.editLink urlA, .completeFetch 0, .selectQuality "High", .selectQuality "High"]

/-- C5 counterexample: with the key `(urlA, audio, High)` never completed
and the cache unchanged, a first request spawns one estimation worker and a
second request for the same key, issued while the first is still in flight,
spawns a second one — two background queries for one key, instead of the
second request attaching to the outstanding result. -/
theorem C5_counterexample :
    (runEvents Otest trC5a).estThreads.count (urlA, true, "High") = 1
  ∧ (runEvents Otest trC5).estThreads.count (urlA, true, "High") = 2
  ∧ cacheLookup (runEvents Otest trC5).size_cache (urlA, true, "High") = none :=
  ⟨rfl, rfl, rfl⟩

/-- C5 (amended): `update_filesize_display` consults only the cache.  On a
hit it displays the cached value and spawns nothing, so a repeated request
after completion returns the same value with no further query; but on a
miss it always appends a fresh estimation worker for the key — there is no
in-flight coalescing, so a second request for the same key before the first
completes issues a second background query. -/
theorem C5_amended (s : GuiSt) (v : Nat) :
    (pyStrip s.in_link_entry ≠ "" →
      cacheLookup s.size_cache (pyStrip s.in_link_entry, s.is_mp3, s.quality_var)
          = some v →
        (update_filesize_display s).estThreads = s.estThreads
      ∧ (update_filesize_display s).filesize_label = .bytes v)
  ∧ (pyStrip s.in_link_entry ≠ "" →
      cacheLookup s.size_cache (pyStrip s.in_link_entry, s.is_mp3, s.quality_var)
          = none →
        (update_filesize_display s).estThreads
          = s.estThreads ++ [(pyStrip s.in_link_entry, s.is_mp3, s.quality_var)]
      ∧ (update_filesize_display s).filesize_label = .estimating) := by
  constructor
  · intro hne hhit
    unfold update_filesize_display
    rw [if_neg hne, hhit]
    exact ⟨rfl, rfl⟩
  · intro hne hmiss
    unfold update_filesize_display
    rw [if_neg hne, hmiss]
    exact ⟨rfl, rfl⟩

def sHit : GuiSt :=
  { initSt with in_link_entry := urlA,
                size_cache := [((urlA, true, "Medium"), 7)] }

def sMiss : GuiSt := { initSt with in_link_entry := urlA }

/-- Witness for C5 (amended): a hit state spawns nothing and shows the
cached 7 bytes; a miss state spawns one worker for its key. -/
theorem C5_witness :
    ((update_filesize_display sHit).estThreads = sHit.estThreads
      ∧ (update_filesize_display sHit).filesize_label = .bytes 7)
  ∧ ((update_filesize_display sMiss).estThreads
        = sMiss.estThreads ++ [(pyStrip sMiss.in_link_entry, sMiss.is_mp3, sMiss.quality_var)]
      ∧ (update_filesize_display sMiss).filesize_label = .estimating) :=
  ⟨(C5_amended sHit 7).1 (by decide) rfl, (C5_amended sMiss 0).2 (by decide) rfl⟩

/-! ### C6 -/

/-- C6: when the current selection is absent or disabled, the fix-up at the
end of `_refresh_quality_menu` selects the first supported option in
ascending order — for the ascending audio (resp. video) option list the
supported set is a downward-closed prefix, so the first supported option is
Low (resp. 480p) whenever any option is supported at all; and when no
option is supported every entry of the rebuilt menu is disabled. -/
theorem C6_fallback (formats : List Format) (cur : String) :
    (entryLookup (audioMenu formats) cur ≠ some true →
      (96 ≤ max_abr formats → fallbackSelect (audioMenu formats) cur = "Low")
    ∧ (max_abr formats < 96 → ∀ e ∈ audioMenu formats, e.2 = false))
  ∧ (entryLookup (videoMenu formats) cur ≠ some true →
      (480 ≤ max_h formats → fallbackSelect (videoMenu formats) cur = "480p")
    ∧ (max_h formats < 480 → ∀ e ∈ videoMenu formats, e.2 = false)) := by
  constructor
  · intro hcur
    refine ⟨?_, ?_⟩
    · intro h96
      have hd : decide (96 ≤ max_abr formats) = true := decide_eq_true h96
      have hfind : (audioMenu formats).find? (fun e => e.2)
          = some ("Low", decide (96 ≤ max_abr formats)) := by
        show List.find? _ (("Low", decide (96 ≤ max_abr formats)) :: _) = _
        exact List.find?_cons_of_pos _ hd
      cases hE : entryLookup (audioMenu formats) cur with
      | none => simp [fallbackSelect, hE, hfind]
      | some b =>
        cases b with
        | true => exact absurd hE hcur
        | false => simp [fallbackSelect, hE, hfind]
    · intro hlt e he
      have h1 : decide (96 ≤ max_abr formats) = false := decide_eq_false (by omega)
      have h2 : decide (192 ≤ max_abr formats) = false := decide_eq_false (by omega)
      have h3 : decide (320 ≤ max_abr formats) = false := decide_eq_false (by omega)
      simp only [audioMenu, audioOpts, List.map_cons, List.map_nil,
        List.mem_cons, List.not_mem_nil, or_false] at he
      rcases he with rfl | rfl | rfl
      · exact h1
      · exact h2
      · exact h3
  · intro hcur
    refine ⟨?_, ?_⟩
    · intro h480
      have hd : decide (480 ≤ max_h formats) = true := decide_eq_true h480
      have hfind : (videoMenu formats).find? (fun e => e.2)
          = some ("480p", decide (480 ≤ max_h formats)) := by
        show List.find? _ (("480p", decide (480 ≤ max_h formats)) :: _) = _
        exact List.find?_cons_of_pos _ hd
      cases hE : entryLookup (videoMenu formats) cur with
      | none => simp [fallbackSelect, hE, hfind]
      | some b =>
        cases b with
        | true => exact absurd hE hcur
        | false => simp [fallbackSelect, hE, hfind]
    · intro hlt e he
      have h1 : decide (480 ≤ max_h formats) = false := decide_eq_false (by omega)
      have h2 : decide (720 ≤ max_h formats) = false := decide_eq_false (by omega)
      have h3 : decide (1080 ≤ max_h formats) = false := decide_eq_false (by omega)
      have h4 : decide (2160 ≤ max_h formats) = false := decide_eq_false (by omega)
      simp only [videoMenu, videoOpts, List.map_cons, List.map_nil,
        List.mem_cons, List.not_mem_nil, or_false] at he
      rcases he with rfl | rfl | rfl | rfl
      · exact h1
      · exact h2
      · exact h3
      · exact h4

/-- Witness for C6: with only a 150-kbps audio-only format and High
selected, the fallback selects Low; the same formats support no video
option, so the 4K video entry is disabled. -/
theorem C6_witness :
    fallbackSelect (audioMenu fmts150) "High" = "Low"
  ∧ (("4K", decide (2160 ≤ max_h fmts150)) : String × Bool).2 = false :=
  ⟨((C6_fallback fmts150 "High").1 (by decide)).1 (by decide),
   ((C6_fallback fmts150 "High").2 (by decide)).2 (by decide)
     ("4K", decide (2160 ≤ max_h fmts150)) (by decide)⟩

/-! ### C7 -/

def fmts192 : List Format := [⟨some "none", some 192, none⟩]

def fmts50 : List Format := [⟨some "none", some 50, none⟩]

/-- Modelled from the spec: the highest still-supported option of a gated
menu — the last enabled entry's label. -/
def highestSupportedLabel (menu : List (String × Bool)) : Option String :=
  ((menu.filter fun e => e.2).map fun e => e.1).getLast?

/-- C7 counterexample: with `max_abr = 192 < 320` and High selected, the
highest still-supported option is Medium, but the code's fix-up selects the
first enabled entry, Low. -/
theorem C7_counterexample :
    max_abr fmts192 < 320
  ∧ highestSupportedLabel (audioMenu fmts192) = some "Medium"
  ∧ fallbackSelect (audioMenu fmts192) "High" = "Low"
  ∧ ("Low" : String) ≠ "Medium" :=
  ⟨by decide, rfl, rfl, by decide⟩

/-- C7 (amended): when the selected audio quality is High and a new fetch
yields `max_abr` below 320, the selection moves to the lowest (first in
ascending order) still-supported option — not the highest — and when no
option is supported at all it stays at High. -/
theorem C7_amended (formats : List Format) (h : max_abr formats < 320) :
    (96 ≤ max_abr formats → fallbackSelect (audioMenu formats) "High" = "Low")
  ∧ (max_abr formats < 96 → fallbackSelect (audioMenu formats) "High" = "High") := by
  have hmenu : audioMenu formats
      = [("Low", decide (96 ≤ max_abr formats)),
         ("Medium", decide (192 ≤ max_abr formats)),
         ("High", decide (320 ≤ max_abr formats))] := rfl
  have hgen : ∀ b1 b2 b3 : Bool,
      entryLookup [("Low", b1), ("Medium", b2), ("High", b3)] "High" = some b3 := by
    decide
  have hE : entryLookup (audioMenu formats) "High"
      = some (decide (320 ≤ max_abr formats)) := by
    rw [hmenu]; exact hgen _ _ _
  have h320 : decide (320 ≤ max_abr formats) = false := decide_eq_false (by omega)
  constructor
  · intro h96
    have hd : decide (96 ≤ max_abr formats) = true := decide_eq_true h96
    have hfind : (audioMenu formats).find? (fun e => e.2)
        = some ("Low", decide (96 ≤ max_abr formats)) := by
      rw [hmenu]; exact List.find?_cons_of_pos _ hd
    simp [fallbackSelect, hE, h320, hfind]
  · intro hlt
    have h96f : decide (96 ≤ max_abr formats) = false := decide_eq_false (by omega)
    have h192f : decide (192 ≤ max_abr formats) = false := decide_eq_false (by omega)
    have hfind : (audioMenu formats).find? (fun e => e.2) = none := by
      rw [hmenu, h96f, h192f, h320]
      rfl
    simp [fallbackSelect, hE, h320, hfind]

/-- Witness for C7 (amended): at `max_abr = 192` the selection moves from
High to Low; at `max_abr = 50` it stays at High. -/
theorem C7_witness :
    fallbackSelect (audioMenu fmts192) "High" = "Low"
  ∧ fallbackSelect (audioMenu fmts50) "High" = "High" :=
  ⟨(C7_amended fmts192 (by decide)).1 (by decide),
   (C7_amended fmts50 (by decide)).2 (by decide)⟩

/-! ### C8 -/

/-- C8: `_strip_ansi` removes every embedded CSI control sequence: a string
made of an escape-free prefix, a CSI sequence (ESC, an opening bracket,
parameter bytes, intermediate bytes, one final byte) and a suffix strips to
the prefix followed by the stripped suffix; and the concrete percent string
of the spec strips to exactly `42%`. -/
theorem C8_strip (pre p i : List Char) (f : Char) (suf : List Char)
    (hpre : ∀ c ∈ pre, c ≠ escChar)
    (hp : ∀ c ∈ p, isParamB c = true) (hi : ∀ c ∈ i, isInterB c = true)
    (hf : isFinalB f = true) :
    stripAnsiL (pre ++ (escChar :: '[' :: (p ++ i ++ [f])) ++ suf)
      = pre ++ stripAnsiL suf
  ∧ strip_ansi "\x1b[0;94m42%\x1b[0m" = "42%" := by
  refine ⟨?_, rfl⟩
  have e1 : pre ++ (escChar :: '[' :: (p ++ i ++ [f])) ++ suf
      = pre ++ (escChar :: '[' :: (p ++ i ++ f :: suf)) := by
    simp
  rw [e1, stripAnsiL_append_plain pre hpre _, stripAnsiL_csi p i f suf hp hi hf]

/-- Witness for C8: the sequence ESC `[0m` embedded between `42` and `%`
is removed. -/
theorem C8_witness :
    stripAnsiL ("42".data ++ (escChar :: '[' :: (['0'] ++ [] ++ ['m'])) ++ "%".data)
      = "42".data ++ stripAnsiL "%".data
  ∧ strip_ansi "\x1b[0;94m42%\x1b[0m" = "42%" :=
  C8_strip "42".data ['0'] [] 'm' "%".data (by decide) (by decide) (by decide)
    (by decide)

/-! ### C9 -/

def trC9 : List Ev :=
  [.editLink urlA, .completeFetch 0, .editLink urlErr, .completeFetch 1]

/-- C9 counterexample: after a successful fetch of `urlA` has put title "A"
on display, a fetch of `urlErr` fails; the status line shows the error, but
the metadata display is NOT cleared — title "A" and `infoA` are still
shown, contradicting the claim that a failing fetch clears the metadata
display. -/
theorem C9_counterexample :
    Otest.extract urlErr = none
  ∧ (runEvents Otest trC9).link_status = "Error fetching link."
  ∧ (runEvents Otest trC9).video_title = "A"
  ∧ (runEvents Otest trC9).current_info = some infoA
  ∧ ("A" : String) ≠ "" :=
  ⟨rfl, rfl, rfl, rfl, by decide⟩

/-- C9 (amended): a failing metadata fetch surfaces the status-line message
`Error fetching link.` and changes nothing else — the selected quality and
the size cache are untouched, and the metadata display is left showing
whatever it showed before (it is not cleared). -/
theorem C9_amended (O : Oracles) (u : String) (s : GuiSt)
    (h0 : u ≠ "") (hv : O.validatorsUrl u = true)
    (hy : is_youtube_url O u = true) (hx : O.extract u = none) :
    wait_link O u s = { s with link_status := "Error fetching link." } := by
  unfold wait_link
  rw [if_neg h0, if_neg (not_not_intro hv), if_neg (not_not_intro hy), hx]

/-- Witness for C9 (amended): the failing fetch of `urlErr` on the initial
state only sets the status line. -/
theorem C9_witness :
    wait_link Otest urlErr initSt
      = { initSt with link_status := "Error fetching link." } :=
  C9_amended Otest urlErr initSt (by decide) rfl rfl rfl

/-! ### C10 -/

/-- A collaborator environment whose URL parser reports the host
`www.youtube.com.evil.example` for every input. -/
def OEvil : Oracles :=
  { validatorsUrl := fun _ => true
    netloc := fun _ => some "www.youtube.com.evil.example"
    extract := fun _ => none
    extractFmt := fun _ _ => none }

/-- C10: `_is_youtube_url` accepts a URL iff the lowercased netloc of the
parse contains `youtube.com` or `youtu.be` as a contiguous substring, and
returns false (instead of raising) when parsing fails; consequently a host
that merely embeds those strings, such as `www.youtube.com.evil.example`,
is accepted as supported. -/
theorem C10_is_youtube (O : Oracles) (url : String) :
    (∀ net, O.netloc url = some net →
      (is_youtube_url O url = true ↔
        (∃ a b, (lowerStr net).data = a ++ "youtube.com".data ++ b)
      ∨ (∃ a b, (lowerStr net).data = a ++ "youtu.be".data ++ b)))
  ∧ (O.netloc url = none → is_youtube_url O url = false)
  ∧ is_youtube_of (some "www.youtube.com.evil.example") = true := by
  refine ⟨?_, ?_, rfl⟩
  · intro net hn
    simp only [is_youtube_url, is_youtube_of, hn]
    rw [Bool.or_eq_true, containsSub_iff, containsSub_iff]
  · intro hn
    simp [is_youtube_url, is_youtube_of, hn]

/-- Witness for C10: under the deceptive host, the acceptance of any URL is
equivalent to the substring condition on that host. -/
theorem C10_witness :
    is_youtube_url OEvil "http://x" = true ↔
      (∃ a b, (lowerStr "www.youtube.com.evil.example").data
          = a ++ "youtube.com".data ++ b)
    ∨ (∃ a b, (lowerStr "www.youtube.com.evil.example").data
          = a ++ "youtu.be".data ++ b) :=
  (C10_is_youtube OEvil "http://x").1 "www.youtube.com.evil.example" rfl

end Yt2mp3
